import Mathlib

/-!
Shallow embedding of the split-ui intent registry and dispatch core.

Sources embedded (TypeScript):
- `src/types`: `Message`, `Intent`, `Task`, `PanelMode`, `TaskUIType`
- `src/registry` (types + index): `JSONSchemaProperty`, `EntitySchema`,
  `IntentDefinition`, `AnthropicTool`, the module-level `registry` object and
  `registerIntent` / `getIntent` / `getAllIntents` / `getIntentTools`
- `src/registry/intents/{addTask,listTasks,completeTask}`: the concrete
  built-in intent descriptors
- `src/store/index.ts`: the zustand store state, its actions, and the
  `persist` middleware projection
- `src/components/ChatPanel.tsx`: the intent-to-task-UI mapping applied after
  a detection round trip
- `src/components/RightPanel.tsx`: the auto-switch countdown effect, its
  interval callback, and the `cancelAutoSwitch` handler
- `src/services/claude.ts` and the post-response normalization shared by
  `AnthropicProvider.detectIntent` (store/index.ts second half) and the
  server's `/api/detect-intent` endpoint

Modelling conventions: the mutable module-level registry object becomes
explicit state passing over an insertion-ordered association list (JS string
keys preserve insertion order; assignment to an existing key updates in
place).  JS numbers carrying confidence scores become exact rationals.  The
React countdown is a small state machine: `effectRun` is one run of the
`useEffect` body (the previous interval having been cleared by the cleanup,
which runs exactly when the effect re-runs), `tick` is one firing of the
scheduled interval callback, and `cancelAutoSwitch` is the button handler.
The spec's display modes map onto the code as: `idle` = context panel with
no current intent, `summary` = context panel with a current intent shown,
`full` = `panelMode = 'task-ui'`.
-/

namespace SplitUI

/-- JSON-style scalar values appearing in extracted entity payloads
(`Record<string, unknown>` in the source, restricted to the scalar cases the
handlers actually read). -/
inductive JsonValue where
  | str (s : String)
  | num (q : ℚ)
  | jbool (b : Bool)
  | jnull
deriving DecidableEq, Repr

/-- Chat message author, from `src/types` (`'user' | 'assistant'`). -/
inductive Role where
  | user
  | assistant
deriving DecidableEq, Repr

/-- `Message` from `src/types`. -/
structure Message where
  id : String
  role : Role
  content : String
  timestamp : ℕ
deriving DecidableEq, Repr

/-- `Intent` from `src/types`: the Activation Record of the spec. -/
structure Intent where
  name : String
  confidence : ℚ
  entities : List (String × JsonValue)
deriving DecidableEq, Repr

/-- Task priority, from `src/types` (`'low' | 'medium' | 'high'`). -/
inductive Priority where
  | low
  | medium
  | high
deriving DecidableEq, Repr

/-- `Task` from `src/types`. -/
structure Task where
  id : String
  title : String
  dueDate : Option String
  priority : Priority
  completed : Bool
  createdAt : ℕ
deriving DecidableEq, Repr

/-- `PanelMode` from `src/types` (`'context' | 'task-ui'`). -/
inductive PanelMode where
  | context
  | taskUI
deriving DecidableEq, Repr

/-- `TaskUIType` from `src/types`
(`'none' | 'add-task' | 'list-tasks' | 'complete-task'`). -/
inductive TaskUIType where
  | none
  | addTask
  | listTasks
  | completeTask
deriving DecidableEq, Repr

/-- `JSONSchemaProperty` from `src/registry/types.ts`. -/
structure JSONSchemaProperty where
  type : Option String
  description : Option String
  enum : Option (List String)
deriving DecidableEq, Repr

/-- `EntitySchema` from `src/registry/types.ts` (the `type: 'object'` tag is
constant in the source and omitted here). -/
structure EntitySchema where
  properties : List (String × JSONSchemaProperty)
  required : Option (List String)
deriving DecidableEq, Repr

/-- `IntentDefinition` from `src/registry/types.ts`; the React component is
an opaque render handle, embedded as its name. -/
structure IntentDefinition where
  name : String
  description : String
  component : String
  entities : EntitySchema
deriving DecidableEq, Repr

/-- The `input_schema` of an `AnthropicTool` (`src/registry/types.ts`). -/
structure ToolInputSchema where
  type : String
  properties : List (String × JSONSchemaProperty)
  required : Option (List String)
deriving DecidableEq, Repr

/-- `AnthropicTool` from `src/registry/types.ts`. -/
structure AnthropicTool where
  name : String
  description : String
  input_schema : ToolInputSchema
deriving DecidableEq, Repr

/-- The module-level `registry: Record<string, IntentDefinition>` object of
`src/registry/index.ts`, embedded as an insertion-ordered association list
(JS objects with string keys enumerate in insertion order, and assignment to
an existing key updates the value in place). -/
abbrev Registry := List (String × IntentDefinition)

/-- `registerIntent` from `src/registry/index.ts`:
`registry[definition.name] = definition`.  Updates in place when the key is
already present, appends otherwise. -/
def registerIntent (d : IntentDefinition) (r : Registry) : Registry :=
  if r.any (fun p => decide (p.1 = d.name)) then
    r.map (fun p => if p.1 = d.name then (p.1, d) else p)
  else
    r ++ [(d.name, d)]

/-- `getIntent` from `src/registry/index.ts`: `registry[name]`. -/
def getIntent (name : String) (r : Registry) : Option IntentDefinition :=
  (r.find? (fun p => decide (p.1 = name))).map Prod.snd

/-- `getAllIntents` from `src/registry/index.ts`: `Object.values(registry)`,
in insertion order. -/
def getAllIntents (r : Registry) : List IntentDefinition :=
  r.map Prod.snd

/-- The per-descriptor tool specification built inside `getIntentTools`. -/
def intentToTool (intent : IntentDefinition) : AnthropicTool :=
  { name := intent.name
    description := intent.description
    input_schema :=
      { type := "object"
        properties := intent.entities.properties
        required := intent.entities.required } }

/-- `getIntentTools` from `src/registry/index.ts`. -/
def getIntentTools (r : Registry) : List AnthropicTool :=
  (getAllIntents r).map intentToTool

/-- One call to `getIntentTools` against the module-level mutable registry,
embedded by explicit state passing: the source function reads the registry
and performs no mutation, so the state it returns is the state it was
given. -/
def getIntentToolsCall (r : Registry) : List AnthropicTool × Registry :=
  (getIntentTools r, r)

/-- Operations the registry module exposes, for reasoning about call
sequences against the module-level registry object. -/
inductive RegistryOp where
  | register (d : IntentDefinition)
  | lookup (name : String)
  | compile
deriving Repr

/-- Whether an operation is a `registerIntent` call. -/
def RegistryOp.isRegister : RegistryOp → Bool
  | RegistryOp.register _ => true
  | _ => false

/-- Effect of one registry-module call on the module-level registry state:
only `registerIntent` writes; `getIntent` and `getIntentTools` are reads. -/
def runOp (op : RegistryOp) (r : Registry) : Registry :=
  match op with
  | RegistryOp.register d => registerIntent d r
  | RegistryOp.lookup _ => r
  | RegistryOp.compile => r

/-- `addTask` descriptor from `src/registry/intents/addTask.tsx`. -/
def addTask : IntentDefinition :=
  { name := "add_task"
    description := "Create a new task with optional due date and priority"
    component := "AddTaskUI"
    entities :=
      { properties :=
          [ ("title",
             { type := Option.some "string"
               description := Option.some "Task title"
               enum := Option.none }),
            ("dueDate",
             { type := Option.some "string"
               description := Option.some "Due date in natural language"
               enum := Option.none }),
            ("priority",
             { type := Option.some "string"
               description := Option.some "Task priority"
               enum := Option.some ["low", "medium", "high"] }) ]
        required := Option.some ["title"] } }

/-- `listTasks` descriptor from `src/registry/intents/listTasks.tsx`. -/
def listTasks : IntentDefinition :=
  { name := "list_tasks"
    description := "View current tasks with optional filtering"
    component := "ListTasksUI"
    entities :=
      { properties :=
          [ ("filter",
             { type := Option.some "string"
               description := Option.some "Task filter"
               enum := Option.some ["all", "completed", "pending"] }) ]
        required := Option.none } }

/-- `completeTask` descriptor from `src/registry/intents/completeTask.tsx`. -/
def completeTask : IntentDefinition :=
  { name := "complete_task"
    description := "Mark a task as completed"
    component := "CompleteTaskUI"
    entities :=
      { properties :=
          [ ("taskIdentifier",
             { type := Option.some "string"
               description := Option.some "Task identifier - title or partial title"
               enum := Option.none }) ]
        required := Option.some ["taskIdentifier"] } }

/-- Registry state after registering the three built-in intents whose
definition files are present in the source, in their registration order. -/
def sampleRegistry : Registry :=
  registerIntent completeTask (registerIntent listTasks (registerIntent addTask []))

/-- The zustand store state from `src/store/index.ts`. -/
structure AppState where
  messages : List Message
  isProcessing : Bool
  currentIntent : Option Intent
  panelMode : PanelMode
  taskUIType : TaskUIType
  tasks : List Task
deriving DecidableEq, Repr

/-- The store's initial state from `src/store/index.ts`. -/
def initialState : AppState :=
  { messages := []
    isProcessing := false
    currentIntent := Option.none
    panelMode := PanelMode.context
    taskUIType := TaskUIType.none
    tasks := [] }

/-- The shape written to storage by the `persist` middleware. -/
structure PersistedState where
  tasks : List Task
  messages : List Message
deriving DecidableEq, Repr

/-- The `persist` middleware's projection from `src/store/index.ts`:
`(state) => ({ tasks: state.tasks, messages: state.messages })`. -/
def persistSlice (s : AppState) : PersistedState :=
  { tasks := s.tasks, messages := s.messages }

/-- Session start with a previously persisted slice: zustand `persist`
shallow-merges the stored slice over the initial state. -/
def rehydrate (p : PersistedState) : AppState :=
  { initialState with tasks := p.tasks, messages := p.messages }

/-- The per-task mapper inside the `toggleTask` action:
`task.id === id ? { ...task, completed: !task.completed } : task`. -/
def toggleOne (id : String) (t : Task) : Task :=
  if t.id = id then { t with completed := !t.completed } else t

/-- The new task list computed by the `toggleTask` action. -/
def toggleTasks (id : String) (tasks : List Task) : List Task :=
  tasks.map (toggleOne id)

/-- The `toggleTask` store action from `src/store/index.ts`. -/
def toggleTask (id : String) (s : AppState) : AppState :=
  { s with tasks := toggleTasks id s.tasks }

/-- The intent-name to task-UI-type mapping in `ChatPanel.handleSubmit`
(`src/components/ChatPanel.tsx`): unknown names set no task UI type. -/
def mapIntentToTaskUI (name : String) : Option TaskUIType :=
  if name = "add_task" then Option.some TaskUIType.addTask
  else if name = "list_tasks" then Option.some TaskUIType.listTasks
  else if name = "complete_task" then Option.some TaskUIType.completeTask
  else Option.none

/-- The state update `ChatPanel.handleSubmit` performs with a detection
result: when an intent arrived it is stored, the panel is put in context
mode, and the task UI type is set only for the three known names. -/
def handleIntentUpdate (intent : Option Intent) (s : AppState) : AppState :=
  match intent with
  | Option.none => s
  | Option.some i =>
      let s1 : AppState :=
        { s with currentIntent := Option.some i, panelMode := PanelMode.context }
      match mapIntentToTaskUI i.name with
      | Option.some u => { s1 with taskUIType := u }
      | Option.none => s1

/-- A content block of a model response, as inspected by the normalizers:
either text or a tool invocation.  The invocation's `input` is `unknown` in
the source; `Option.none` models a non-object input (the source then
substitutes an empty record). -/
inductive ContentBlock where
  | text (t : String)
  | toolUse (name : String) (input : Option (List (String × JsonValue)))
deriving DecidableEq, Repr

/-- `response.content.find((block) => block.type === 'tool_use')`, keeping
the invoked name and payload. -/
def findToolUse (blocks : List ContentBlock) :
    Option (String × Option (List (String × JsonValue))) :=
  blocks.findSome? (fun b =>
    match b with
    | ContentBlock.toolUse n i => Option.some (n, i)
    | ContentBlock.text _ => Option.none)

/-- The post-response normalization shared by `AnthropicProvider.detectIntent`
and the server's `/api/detect-intent` handler: no tool use means no intent;
otherwise the invoked name, confidence 1.0, and the payload (an empty record
when the payload is not an object) are packaged unchanged. -/
def normalizeResponse (blocks : List ContentBlock) : Option Intent :=
  match findToolUse blocks with
  | Option.none => Option.none
  | Option.some (name, input) =>
      Option.some { name := name, confidence := 1, entities := input.getD [] }

/-- The destructured `toolUse.input` of the legacy `detect_intent` tool in
`src/services/claude.ts`: the model itself reports an intent name, a numeric
confidence, and entities. -/
structure DetectInput where
  intent : String
  confidence : ℚ
  entities : List (String × JsonValue)
deriving DecidableEq, Repr

/-- The post-response logic of `detectIntent` in `src/services/claude.ts`:
no tool use means no intent; below confidence 0.7 or on intent `'none'` the
result is dropped; otherwise the model-reported confidence is carried. -/
def claudeNormalize (toolUse : Option DetectInput) : Option Intent :=
  match toolUse with
  | Option.none => Option.none
  | Option.some d =>
      if d.confidence < mkRat 7 10 ∨ d.intent = "none" then Option.none
      else Option.some { name := d.intent, confidence := d.confidence, entities := d.entities }

/-- The slice of component state `RightPanel` works with: the store fields it
reads, the `autoSwitchCountdown` local state, and whether an interval from
the auto-switch effect is currently scheduled. -/
structure PanelState where
  panelMode : PanelMode
  currentIntent : Option Intent
  taskUIType : TaskUIType
  autoSwitchCountdown : Option ℕ
  timerActive : Bool
deriving DecidableEq, Repr

/-- The guard of the auto-switch effect in `RightPanel`:
`panelMode === 'context' && currentIntent && currentIntent.confidence >= 0.8
&& taskUIType !== 'none'`. -/
def autoSwitchCondition (s : PanelState) : Bool :=
  decide (s.panelMode = PanelMode.context) &&
    (match s.currentIntent with
     | Option.some i => decide (mkRat 8 10 ≤ i.confidence)
     | Option.none => false) &&
    decide (s.taskUIType ≠ TaskUIType.none)

/-- One run of the auto-switch `useEffect` body in `RightPanel` (the cleanup
of the previous run, which clears any previous interval, runs exactly when
the effect re-runs): when the guard holds the countdown is set to 3 and an
interval is scheduled; otherwise the countdown is cleared and no interval is
scheduled. -/
def effectRun (s : PanelState) : PanelState :=
  if autoSwitchCondition s then
    { s with autoSwitchCountdown := Option.some 3, timerActive := true }
  else
    { s with autoSwitchCountdown := Option.none, timerActive := false }

/-- One firing of the scheduled interval callback in `RightPanel`:
`prev === null || prev <= 1` clears the interval, switches the panel to the
task UI, and nulls the countdown; otherwise the countdown decrements. -/
def tick (s : PanelState) : PanelState :=
  if s.timerActive then
    match s.autoSwitchCountdown with
    | Option.none =>
        { s with
            autoSwitchCountdown := Option.none
            panelMode := PanelMode.taskUI
            timerActive := false }
    | Option.some p =>
        if p ≤ 1 then
          { s with
              autoSwitchCountdown := Option.none
              panelMode := PanelMode.taskUI
              timerActive := false }
        else
          { s with autoSwitchCountdown := Option.some (p - 1) }
  else s

/-- The `cancelAutoSwitch` click handler in `RightPanel`:
`setAutoSwitchCountdown(null)` and nothing else.  `autoSwitchCountdown` is
not among the effect's dependencies, so this neither re-runs the effect nor
clears the scheduled interval. -/
def cancelAutoSwitch (s : PanelState) : PanelState :=
  { s with autoSwitchCountdown := Option.none }

/-- A high-confidence activation with an empty extracted payload. -/
def sampleIntent : Intent :=
  { name := "add_task", confidence := 1, entities := [] }

/-- A summary-state panel (context mode, intent present, task UI mapped)
before the auto-switch effect has run. -/
def panelStart : PanelState :=
  { panelMode := PanelMode.context
    currentIntent := Option.some sampleIntent
    taskUIType := TaskUIType.addTask
    autoSwitchCountdown := Option.none
    timerActive := false }

/-- A concrete task used in witnesses. -/
def sampleTask : Task :=
  { id := "t1"
    title := "buy milk"
    dueDate := Option.none
    priority := Priority.medium
    completed := false
    createdAt := 0 }

/-- Helper: a fold of registry-module calls containing no `registerIntent`
call leaves the module-level registry unchanged. -/
lemma runOps_no_register (ops : List RegistryOp) :
    ∀ r : Registry, (∀ op ∈ ops, op.isRegister = false) →
      ops.foldl (fun s op => runOp op s) r = r := by
  induction ops with
  | nil => intro r _; rfl
  | cons op ops ih =>
      intro r h
      have hop : op.isRegister = false := h op (List.mem_cons_self op ops)
      have hstep : runOp op r = r := by
        cases op with
        | register d => simp [RegistryOp.isRegister] at hop
        | lookup n => rfl
        | compile => rfl
      rw [List.foldl_cons, hstep]
      exact ih r (fun o ho => h o (List.mem_cons_of_mem op ho))

/-- Claim C7: `getIntentTools` is a pure read of the registry state — a call
returns the registry unchanged, and a second call after any sequence of
non-`registerIntent` operations returns the identical tool list (list
equality, so order included). -/
theorem compile_deterministic :
    ∀ (r : Registry) (ops : List RegistryOp),
      (∀ op ∈ ops, op.isRegister = false) →
      ((getIntentToolsCall r).2 = r ∧
       (getIntentToolsCall
          (ops.foldl (fun s op => runOp op s) ((getIntentToolsCall r).2))).1 =
         (getIntentToolsCall r).1) := by
  intro r ops h
  refine ⟨rfl, ?_⟩
  simp only [getIntentToolsCall]
  rw [runOps_no_register ops r h]

/-- Witness for C7 at a concrete registry and a concrete register-free call
sequence. -/
theorem compile_deterministic_witness :
    (getIntentToolsCall sampleRegistry).2 = sampleRegistry ∧
    (getIntentToolsCall
       ([RegistryOp.lookup "add_task", RegistryOp.compile].foldl
          (fun s op => runOp op s) ((getIntentToolsCall sampleRegistry).2))).1 =
      (getIntentToolsCall sampleRegistry).1 :=
  compile_deterministic sampleRegistry
    [RegistryOp.lookup "add_task", RegistryOp.compile] (by decide)

/-- Claim C8: the compiled tool list has exactly one entry per registered
descriptor, positionally the tool specification with the descriptor name,
its description, and an object schema carrying its declared properties and
required subset; the empty registry compiles to the empty tool list. -/
theorem compile_shape :
    ∀ r : Registry,
      (getIntentTools r).length = (getAllIntents r).length ∧
      (∀ i : ℕ, (getIntentTools r)[i]? = ((getAllIntents r)[i]?).map intentToTool) ∧
      (∀ d : IntentDefinition,
        intentToTool d =
          { name := d.name
            description := d.description
            input_schema :=
              { type := "object"
                properties := d.entities.properties
                required := d.entities.required } }) ∧
      getIntentTools [] = [] := by
  intro r
  refine ⟨?_, ?_, fun d => rfl, rfl⟩
  · simp [getIntentTools]
  · intro i
    simp [getIntentTools, List.getElem?_map]

/-- Claim C9: the persisted projection is exactly the pair of domain slices
(tasks and messages); it is invariant under every change to the dispatch
fields (`currentIntent`, `panelMode`, `taskUIType`, `isProcessing`); and a
rehydrated session, like a fresh one, starts with no activation and the
context display mode. -/
theorem persisted_slice_only_domain_data :
    (∀ (s : AppState) (oi : Option Intent) (pm : PanelMode) (u : TaskUIType) (b : Bool),
        persistSlice
            { s with currentIntent := oi, panelMode := pm, taskUIType := u, isProcessing := b } =
          persistSlice s) ∧
    (∀ s : AppState, persistSlice s = { tasks := s.tasks, messages := s.messages }) ∧
    (∀ p : PersistedState,
        (rehydrate p).currentIntent = Option.none ∧
        (rehydrate p).panelMode = PanelMode.context ∧
        (rehydrate p).taskUIType = TaskUIType.none ∧
        (rehydrate p).isProcessing = false ∧
        (rehydrate p).tasks = p.tasks ∧
        (rehydrate p).messages = p.messages) ∧
    initialState.currentIntent = Option.none ∧
    initialState.panelMode = PanelMode.context :=
  ⟨fun _ _ _ _ _ => rfl, fun _ => rfl, fun _ => ⟨rfl, rfl, rfl, rfl, rfl, rfl⟩, rfl, rfl⟩

/-- Helper: toggling the same id twice restores a task. -/
lemma toggleOne_involutive (id : String) (t : Task) :
    toggleOne id (toggleOne id t) = t := by
  cases t with
  | mk tid title dueDate priority completed createdAt =>
      by_cases h : tid = id <;> simp [toggleOne, h]

/-- Helper: toggling the same id twice restores the task list. -/
lemma toggleTasks_involutive (id : String) (ts : List Task) :
    toggleTasks id (toggleTasks id ts) = ts := by
  induction ts with
  | nil => rfl
  | cons t ts ih =>
      simp only [toggleTasks, List.map_cons, List.cons.injEq] at ih ⊢
      exact ⟨toggleOne_involutive id t, ih⟩

/-- Helper: toggling an id no task carries is the identity. -/
lemma toggleTasks_no_match (id : String) (ts : List Task)
    (h : ∀ t ∈ ts, t.id ≠ id) : toggleTasks id ts = ts := by
  induction ts with
  | nil => rfl
  | cons t ts ih =>
      have ht : t.id ≠ id := h t (List.mem_cons_self t ts)
      simp only [toggleTasks, List.map_cons, List.cons.injEq] at ih ⊢
      exact ⟨by simp [toggleOne, ht], ih (fun q hq => h q (List.mem_cons_of_mem t hq))⟩

/-- Claim C10: `toggleTask` preserves list length and order; at every
position it changes at most the `completed` flag, leaving every other field
(and every non-matching task entirely) unchanged; it is an involution; with
an id no task carries it is the identity; and the store action touches only
the `tasks` slice. -/
theorem toggleTask_props :
    ∀ (tasks : List Task) (id : String),
      ((toggleTasks id tasks).length = tasks.length) ∧
      (∀ (i : ℕ) (t : Task), tasks[i]? = Option.some t →
        ∃ t2, (toggleTasks id tasks)[i]? = Option.some t2 ∧
          t2.id = t.id ∧ t2.title = t.title ∧ t2.dueDate = t.dueDate ∧
          t2.priority = t.priority ∧ t2.createdAt = t.createdAt ∧
          (t.id ≠ id → t2 = t)) ∧
      (toggleTasks id (toggleTasks id tasks) = tasks) ∧
      ((∀ t ∈ tasks, t.id ≠ id) → toggleTasks id tasks = tasks) ∧
      (∀ s : AppState, toggleTask id s = { s with tasks := toggleTasks id s.tasks }) := by
  intro tasks id
  refine ⟨by simp [toggleTasks], ?_, toggleTasks_involutive id tasks,
    toggleTasks_no_match id tasks, fun s => rfl⟩
  intro i t h
  refine ⟨toggleOne id t, ?_, ?_, ?_, ?_, ?_, ?_, ?_⟩
  · rw [toggleTasks, List.getElem?_map, h]
    rfl
  · by_cases h2 : t.id = id <;> simp [toggleOne, h2]
  · by_cases h2 : t.id = id <;> simp [toggleOne, h2]
  · by_cases h2 : t.id = id <;> simp [toggleOne, h2]
  · by_cases h2 : t.id = id <;> simp [toggleOne, h2]
  · by_cases h2 : t.id = id <;> simp [toggleOne, h2]
  · intro hne
    simp [toggleOne, hne]

/-- Witness for C10: toggling an id carried by no task leaves a concrete
list unchanged. -/
theorem toggleTask_props_witness :
    toggleTasks "zzz" [sampleTask] = [sampleTask] := by
  have h := toggleTask_props [sampleTask] "zzz"
  exact h.2.2.2.1 (by decide)

/-- The `addTask` descriptor with a changed description but the same
identifier, for exercising duplicate registration. -/
def addTaskVariant : IntentDefinition :=
  { addTask with description := "Create a task (duplicate registration)" }

/-- Claim C2 counterexample: registering a second descriptor with the
already-present identifier `add_task` does not fail and does not leave the
registry unchanged — the entry is silently overwritten and lookup now
returns the new descriptor. -/
theorem duplicate_register_overwrites_cex :
    addTaskVariant.name = addTask.name ∧
    addTaskVariant ≠ addTask ∧
    registerIntent addTaskVariant (registerIntent addTask []) ≠ registerIntent addTask [] ∧
    getIntent "add_task" (registerIntent addTaskVariant (registerIntent addTask [])) =
      Option.some addTaskVariant := by decide

/-- Helper: the in-place update performed by a duplicate registration keeps
the key sequence unchanged. -/
lemma update_keys (d : IntentDefinition) (r : Registry) :
    (r.map (fun p => if p.1 = d.name then (p.1, d) else p)).map Prod.fst = r.map Prod.fst := by
  rw [List.map_map]
  exact List.map_congr_left (fun p _ => by by_cases hq : p.1 = d.name <;> simp [hq])

/-- Helper: after the in-place update of a present key, lookup of that key
returns the new descriptor. -/
lemma getIntent_update_self (d : IntentDefinition) :
    ∀ r : Registry, (∃ p ∈ r, p.1 = d.name) →
      getIntent d.name (r.map (fun p => if p.1 = d.name then (p.1, d) else p)) =
        Option.some d := by
  intro r
  induction r with
  | nil => rintro ⟨p, hp, _⟩; cases hp
  | cons q ps ih =>
      rintro ⟨p, hp, hpd⟩
      by_cases hq : q.1 = d.name
      · simp only [List.map_cons, if_pos hq, getIntent]
        rw [List.find?_cons_of_pos]
        · rfl
        · simp [hq]
      · have hps : ∃ p ∈ ps, p.1 = d.name := by
          rcases List.mem_cons.mp hp with heq | hmem
          · exact absurd (heq ▸ hpd) hq
          · exact ⟨p, hmem, hpd⟩
        simp only [getIntent] at ih
        simp only [List.map_cons, if_neg hq, getIntent]
        rw [List.find?_cons_of_neg]
        · exact ih hps
        · simp [hq]

/-- Helper: the in-place update of key `d.name` leaves lookups of every
other key unchanged. -/
lemma getIntent_update_other (d : IntentDefinition) (k : String) (hk : k ≠ d.name) :
    ∀ r : Registry,
      getIntent k (r.map (fun p => if p.1 = d.name then (p.1, d) else p)) = getIntent k r := by
  intro r
  induction r with
  | nil => rfl
  | cons q ps ih =>
      simp only [getIntent] at ih
      by_cases hq : q.1 = d.name
      · have hqk : ¬ q.1 = k := fun h => hk (h ▸ hq)
        simp only [List.map_cons, if_pos hq, getIntent]
        rw [List.find?_cons_of_neg, List.find?_cons_of_neg]
        · exact ih
        · simp [hqk]
        · simp [hqk]
      · by_cases hqk : q.1 = k
        · simp only [List.map_cons, if_neg hq, getIntent]
          rw [List.find?_cons_of_pos, List.find?_cons_of_pos]
          · simp [hqk]
          · simp [hqk]
        · simp only [List.map_cons, if_neg hq, getIntent]
          rw [List.find?_cons_of_neg, List.find?_cons_of_neg]
          · exact ih
          · simp [hqk]
          · simp [hqk]

/-- Claim C2 (amended): registering a descriptor whose identifier is already
present never fails — it silently overwrites the existing entry in place:
the registry keeps its length and key sequence, the duplicate identifier now
maps to the new descriptor, and every other identifier's entry is
unchanged. -/
theorem duplicate_register_overwrite :
    ∀ (r : Registry) (d : IntentDefinition),
      (∃ p ∈ r, p.1 = d.name) →
      ((registerIntent d r).length = r.length ∧
       (registerIntent d r).map Prod.fst = r.map Prod.fst ∧
       getIntent d.name (registerIntent d r) = Option.some d ∧
       ∀ k, k ≠ d.name → getIntent k (registerIntent d r) = getIntent k r) := by
  intro r d h
  have hany : r.any (fun p => decide (p.1 = d.name)) = true := by
    rw [List.any_eq_true]
    obtain ⟨p, hp, hpd⟩ := h
    exact ⟨p, hp, by simp [hpd]⟩
  have hreg : registerIntent d r = r.map (fun p => if p.1 = d.name then (p.1, d) else p) := by
    simp [registerIntent, hany]
  rw [hreg]
  exact ⟨by simp, update_keys d r, getIntent_update_self d r h,
    fun k hk => getIntent_update_other d k hk r⟩

/-- Witness for C2 (amended) at a concrete duplicate registration. -/
theorem duplicate_register_overwrite_witness :
    getIntent addTaskVariant.name
        (registerIntent addTaskVariant (registerIntent addTask [])) =
      Option.some addTaskVariant :=
  (duplicate_register_overwrite (registerIntent addTask []) addTaskVariant (by decide)).2.2.1

/-- Helper: the auto-switch effect guard, as a proposition. -/
lemma autoSwitchCondition_iff (s : PanelState) :
    autoSwitchCondition s = true ↔
      (s.panelMode = PanelMode.context ∧
       (∃ i, s.currentIntent = Option.some i ∧ mkRat 8 10 ≤ i.confidence) ∧
       s.taskUIType ≠ TaskUIType.none) := by
  cases hci : s.currentIntent with
  | none => simp [autoSwitchCondition, hci]
  | some i => simp [autoSwitchCondition, hci, and_assoc]

/-- Claim C3 counterexample: a high-certainty activation with an empty
extracted payload still starts the countdown and, after three ticks, reaches
the task UI — required fields and extracted data are never consulted. -/
theorem empty_entities_auto_promotes_cex :
    sampleIntent.entities = [] ∧
    mkRat 8 10 ≤ sampleIntent.confidence ∧
    panelStart.currentIntent = Option.some sampleIntent ∧
    (effectRun panelStart).autoSwitchCountdown = Option.some 3 ∧
    (tick (tick (tick (effectRun panelStart)))).panelMode = PanelMode.taskUI := by decide

/-- Claim C3 (amended): the auto-switch countdown starts exactly when the
panel is in context mode with a current intent of confidence at least 0.8
and a task UI type other than none; the extracted data plays no role in the
condition. -/
theorem countdown_start_characterization :
    ∀ s : PanelState,
      (effectRun s).autoSwitchCountdown = Option.some 3 ↔
        (s.panelMode = PanelMode.context ∧
         (∃ i, s.currentIntent = Option.some i ∧ mkRat 8 10 ≤ i.confidence) ∧
         s.taskUIType ≠ TaskUIType.none) := by
  intro s
  by_cases h : autoSwitchCondition s = true
  · have hc : (effectRun s).autoSwitchCountdown = Option.some 3 := by simp [effectRun, h]
    exact iff_of_true hc ((autoSwitchCondition_iff s).mp h)
  · have hc : (effectRun s).autoSwitchCountdown = Option.none := by simp [effectRun, h]
    exact iff_of_false (by simp [hc]) (fun hr => h ((autoSwitchCondition_iff s).mpr hr))

/-- A response in which the model invokes a capability name that was never
registered. -/
def deleteEverythingResponse : List ContentBlock :=
  [ ContentBlock.text "Sure, removing everything now.",
    ContentBlock.toolUse "delete_everything" (Option.some [("target", JsonValue.str "all")]) ]

/-- Claim C4 counterexample: `delete_everything` resolves to nothing in the
registry, yet normalization returns an Activation Record for it (no
`UnknownCapability` failure exists), and applying the chat handler leaves
that record as the current intent — the controller is not idle. -/
theorem unknown_capability_no_error_cex :
    getIntent "delete_everything" sampleRegistry = Option.none ∧
    normalizeResponse deleteEverythingResponse =
      Option.some
        { name := "delete_everything", confidence := 1,
          entities := [("target", JsonValue.str "all")] } ∧
    (handleIntentUpdate (normalizeResponse deleteEverythingResponse) initialState).currentIntent =
      Option.some
        { name := "delete_everything", confidence := 1,
          entities := [("target", JsonValue.str "all")] } ∧
    (handleIntentUpdate (normalizeResponse deleteEverythingResponse) initialState).taskUIType =
      TaskUIType.none := by decide

/-- Claim C4 (amended): normalization never consults the registry — every
response containing a tool invocation yields an Activation Record carrying
the invoked name (registered or not), confidence 1.0, and the raw payload;
no `UnknownCapability` error is raised anywhere. -/
theorem invocation_always_normalized :
    ∀ (blocks : List ContentBlock) (name : String)
      (input : Option (List (String × JsonValue))),
      findToolUse blocks = Option.some (name, input) →
      normalizeResponse blocks =
        Option.some { name := name, confidence := 1, entities := input.getD [] } := by
  intro blocks name input h
  simp [normalizeResponse, h]

/-- Witness for C4 (amended) at a concrete unregistered invocation. -/
theorem invocation_always_normalized_witness :
    normalizeResponse [ContentBlock.toolUse "nuke_it" Option.none] =
      Option.some { name := "nuke_it", confidence := 1, entities := [] } :=
  invocation_always_normalized [ContentBlock.toolUse "nuke_it" Option.none]
    "nuke_it" Option.none rfl

/-- A response whose payload carries a key declared by no field of the
invoked capability. -/
def extraneousResponse : List ContentBlock :=
  [ ContentBlock.toolUse "add_task"
      (Option.some [("title", JsonValue.str "buy milk"), ("bogus", JsonValue.str "zzz")]) ]

/-- Claim C5 counterexample: the payload key `bogus` matches no declared
field of `add_task`, yet it appears verbatim in the normalized record's
extracted data — extraneous keys are not dropped. -/
theorem extraneous_key_kept_cex :
    normalizeResponse extraneousResponse =
      Option.some
        { name := "add_task", confidence := 1,
          entities := [("title", JsonValue.str "buy milk"), ("bogus", JsonValue.str "zzz")] } ∧
    getIntent "add_task" sampleRegistry = Option.some addTask ∧
    ¬ ("bogus" ∈ addTask.entities.properties.map Prod.fst) := by decide

/-- Claim C5 (amended): normalization passes the invocation payload through
unchanged into the record's extracted data — no filtering against the
capability's declared fields happens, so extraneous keys are kept. -/
theorem payload_passed_through :
    ∀ (blocks : List ContentBlock) (name : String)
      (input : Option (List (String × JsonValue))),
      findToolUse blocks = Option.some (name, input) →
      (normalizeResponse blocks).map Intent.entities = Option.some (input.getD []) := by
  intro blocks name input h
  simp [normalizeResponse, h]

/-- Witness for C5 (amended) at a concrete payload with an undeclared key. -/
theorem payload_passed_through_witness :
    (normalizeResponse
        [ContentBlock.toolUse "add_task"
          (Option.some [("extra", JsonValue.jbool true)])]).map Intent.entities =
      Option.some [("extra", JsonValue.jbool true)] :=
  payload_passed_through
    [ContentBlock.toolUse "add_task" (Option.some [("extra", JsonValue.jbool true)])]
    "add_task" (Option.some [("extra", JsonValue.jbool true)]) rfl

/-- Claim C6 counterexample: on the `services/claude.ts` path the model
reports a graded confidence; an invocation with confidence 0.9 produces a
record whose certainty is 0.9 (not 1.0), and one with confidence 0.5
produces no record at all — a model-elicited confidence both gates
production and is carried in the record. -/
theorem graded_confidence_cex :
    claudeNormalize
        (Option.some { intent := "add_task", confidence := mkRat 9 10, entities := [] }) =
      Option.some { name := "add_task", confidence := mkRat 9 10, entities := [] } ∧
    (mkRat 9 10 : ℚ) ≠ 1 ∧
    claudeNormalize
        (Option.some { intent := "add_task", confidence := mkRat 1 2, entities := [] }) =
      Option.none := by decide

/-- Claim C6 (amended): the provider-path normalizers assign certainty
exactly 1.0 to every invocation, while the legacy `services/claude.ts`
normalizer carries the model-reported confidence when it is at least 0.7 and
the intent is not `none`, and suppresses the record below 0.7. -/
theorem confidence_sources :
    ∀ (blocks : List ContentBlock) (name : String)
      (input : Option (List (String × JsonValue))) (d : DetectInput),
      (findToolUse blocks = Option.some (name, input) →
        (normalizeResponse blocks).map Intent.confidence = Option.some 1) ∧
      (mkRat 7 10 ≤ d.confidence → d.intent ≠ "none" →
        claudeNormalize (Option.some d) =
          Option.some { name := d.intent, confidence := d.confidence, entities := d.entities }) ∧
      (d.confidence < mkRat 7 10 → claudeNormalize (Option.some d) = Option.none) := by
  intro blocks name input d
  refine ⟨?_, ?_, ?_⟩
  · intro h
    simp [normalizeResponse, h]
  · intro h1 h2
    have hcond : ¬ (d.confidence < mkRat 7 10 ∨ d.intent = "none") := by
      push_neg
      exact ⟨h1, h2⟩
    simp [claudeNormalize, hcond]
  · intro h
    simp [claudeNormalize, h]

/-- Witness for C6 (amended) at concrete invocations on both paths. -/
theorem confidence_sources_witness :
    (normalizeResponse [ContentBlock.toolUse "list_tasks" Option.none]).map Intent.confidence =
      Option.some 1 ∧
    claudeNormalize
        (Option.some { intent := "complete_task", confidence := mkRat 4 5, entities := [] }) =
      Option.some { name := "complete_task", confidence := mkRat 4 5, entities := [] } ∧
    claudeNormalize
        (Option.some { intent := "complete_task", confidence := mkRat 3 5, entities := [] }) =
      Option.none := by
  have h := confidence_sources [ContentBlock.toolUse "list_tasks" Option.none]
    "list_tasks" Option.none
  exact ⟨(h ⟨"complete_task", mkRat 4 5, []⟩).1 rfl,
         (h ⟨"complete_task", mkRat 4 5, []⟩).2.1 (by decide) (by decide),
         (h ⟨"complete_task", mkRat 3 5, []⟩).2.2 (by decide)⟩

/-- Claim C1 (code defect evidence): from a summary state the effect starts
the countdown and schedules the interval; `cancelAutoSwitch` clears only the
displayed countdown, not the interval — and the very next interval firing
takes the `prev === null` branch and promotes the panel to the task UI.  A
cancelled countdown therefore still fires, contradicting both the claim and
the button's own label. -/
theorem cancelled_countdown_still_promotes :
    panelStart.panelMode = PanelMode.context ∧
    (effectRun panelStart).autoSwitchCountdown = Option.some 3 ∧
    (effectRun panelStart).timerActive = true ∧
    (cancelAutoSwitch (effectRun panelStart)).autoSwitchCountdown = Option.none ∧
    (tick (cancelAutoSwitch (effectRun panelStart))).panelMode = PanelMode.taskUI := by decide

end SplitUI
